import Mathlib

/-!
Verification of `server_mt.py`, a minimal multithreaded HTTP static file
server with a sliding-window rate limiter, a path-traversal guard, a
lock-protected hit counter, and a filtered directory listing.

The Python source is shallowly embedded: pure string/path manipulation is
translated to executable Lean functions on `String` / `List String`
(absolute paths are component lists, so `os.path` operations become list
operations); the filesystem is an abstract record of query functions
(the model has no symlinks, so `os.path.realpath` is lexical
normalization); the per-connection handler `_serve_connection` becomes a
pure function from the received bytes and the rate-limit decision to the
response plus the list of `_bump_count` keys it records; the rate limiter
and the lock-protected counter are modelled as explicit state transformers
and a small labelled transition system respectively.
-/

namespace ServerMT

/-! ## String helpers (Python `str.split`, `bytes.split`, `lstrip`, percent coding) -/

/-- Python whitespace characters recognized by `str.split()`. -/
def isPyWs (c : Char) : Bool :=
  c == ' ' || c == '\t' || c == '\n' || c == '\r' || c == '\x0b' || c == '\x0c'

/-- Tokenizer behind `pySplit`: `tok` holds the current token reversed. -/
def pySplitAux : List Char → List Char → List String
  | [], tok => if tok = [] then [] else [⟨tok.reverse⟩]
  | c :: rest, tok =>
    if isPyWs c then
      if tok = [] then pySplitAux rest []
      else ⟨tok.reverse⟩ :: pySplitAux rest []
    else pySplitAux rest (c :: tok)

/-- Python `s.split()` with no argument: split on whitespace runs, dropping empties. -/
def pySplit (s : String) : List String :=
  pySplitAux s.toList []

/-- Characters before the first CRLF. -/
def firstLineChars : List Char → List Char
  | '\r' :: '\n' :: _ => []
  | c :: rest => c :: firstLineChars rest
  | [] => []

/-- Model of `data.split(b"\r\n", 1)[0]`: the text before the first CRLF. -/
def firstLine (data : String) : String :=
  ⟨firstLineChars data.toList⟩

/-- Splitter behind `splitChar`, the model of `str.split(sep)`. -/
def splitCharAux (sep : Char) : List Char → List Char → List String
  | [], tok => [⟨tok.reverse⟩]
  | c :: rest, tok =>
    if c == sep then ⟨tok.reverse⟩ :: splitCharAux sep rest []
    else splitCharAux sep rest (c :: tok)

/-- Python `s.split(sep)` for a one-character separator (also the behavior
of `os.path`-style component splitting on `"/"`). -/
def splitChar (sep : Char) (s : String) : List String :=
  splitCharAux sep s.toList []

/-- Python `s.startswith("/")`. -/
def startsWithSlash (s : String) : Bool :=
  s.toList.head? == some '/'

/-- Python `s.endswith("/")`. -/
def endsWithSlash (s : String) : Bool :=
  s.toList.getLast? == some '/'

/-- Python `s.lower()` (ASCII case folding suffices for the extensions). -/
def lowerStr (s : String) : String :=
  ⟨s.toList.map Char.toLower⟩

/-- Python `sep.join(parts)`. -/
def joinWith (sep : String) : List String → String
  | [] => ""
  | [x] => x
  | x :: xs => x ++ sep ++ joinWith sep xs

/-- Code-point comparison of strings, as Python `<=` on `str`. -/
def strLeB : List Char → List Char → Bool
  | [], _ => true
  | _ :: _, [] => false
  | x :: xs, y :: ys => if x < y then true else if y < x then false else strLeB xs ys

/-- Python `s.lstrip("/")`: remove every leading slash. -/
def lstripSlash (s : String) : String :=
  ⟨s.toList.dropWhile (fun c => c == '/')⟩

/-- Value of a hexadecimal digit character, if any. -/
def hexVal (c : Char) : Option Nat :=
  if '0' ≤ c ∧ c ≤ '9' then some (c.toNat - '0'.toNat)
  else if 'a' ≤ c ∧ c ≤ 'f' then some (c.toNat - 'a'.toNat + 10)
  else if 'A' ≤ c ∧ c ≤ 'F' then some (c.toNat - 'A'.toNat + 10)
  else none

/-- Character-level model of `urllib.parse.unquote`: each valid `%XX` escape
becomes the character with that code, other characters pass through.
(Faithful to Python for single-byte escapes; the claims only involve ASCII.) -/
def unquoteChars : List Char → List Char
  | '%' :: h1 :: h2 :: rest =>
    match hexVal h1, hexVal h2 with
    | some a, some b => Char.ofNat (16 * a + b) :: unquoteChars rest
    | _, _ => '%' :: unquoteChars (h1 :: h2 :: rest)
  | c :: rest => c :: unquoteChars rest
  | [] => []

/-- Model of `urllib.parse.unquote` on strings. -/
def unquote (s : String) : String := ⟨unquoteChars s.toList⟩

/-- UTF-8 encoding of a character as a list of byte values. -/
def utf8Bytes (c : Char) : List Nat :=
  let n := c.toNat
  if n < 128 then [n]
  else if n < 2048 then [192 + n / 64, 128 + n % 64]
  else if n < 65536 then [224 + n / 4096, 128 + (n / 64) % 64, 128 + n % 64]
  else [240 + n / 262144, 128 + (n / 4096) % 64, 128 + (n / 64) % 64, 128 + n % 64]

/-- Uppercase hexadecimal digit for a value below 16. -/
def hexDigitU (n : Nat) : Char :=
  if n < 10 then Char.ofNat (48 + n) else Char.ofNat (55 + n)

/-- Bytes that `urllib.parse.quote` leaves unescaped with the default
`safe='/'`: ASCII letters, digits, and the characters `_ . - ~ /`. -/
def quoteSafeByte (b : Nat) : Bool :=
  (65 ≤ b && b ≤ 90) || (97 ≤ b && b ≤ 122) || (48 ≤ b && b ≤ 57) ||
  (b == 95) || (b == 46) || (b == 45) || (b == 126) || (b == 47)

/-- Percent-encoding of one byte under `urllib.parse.quote`. -/
def quoteByte (b : Nat) : List Char :=
  if quoteSafeByte b then [Char.ofNat b]
  else ['%', hexDigitU (b / 16), hexDigitU (b % 16)]

/-- Model of `urllib.parse.quote` with the default safe set. -/
def pyQuote (s : String) : String :=
  ⟨(s.toList.flatMap utf8Bytes).flatMap quoteByte⟩

/-- Insertion of a string into a sorted list (for Python `sorted`). -/
def insertStr (x : String) : List String → List String
  | [] => [x]
  | y :: ys => if strLeB x.toList y.toList then x :: y :: ys else y :: insertStr x ys

/-- Model of Python `sorted` on strings (comparison by code points). -/
def sortStrs : List String → List String
  | [] => []
  | x :: xs => insertStr x (sortStrs xs)

/-! ## Path model

An absolute filesystem path is a list of components below the root, so
`/srv/www` is `["srv", "www"]`. The model has no symlinks, so
`os.path.realpath` is lexical normalization of `""`, `"."` and `".."`
segments, and `os.path.join(dir, rel)` for a relative `rel` is
concatenation of component lists. -/

/-- Model of `os.path.realpath` on a component list (no symlinks): drop
empty and `"."` components, resolve `".."` against the accumulated prefix
(at the root, excess `".."` stays at the root). -/
def realpathComps (comps : List String) : List String :=
  comps.foldl
    (fun acc c =>
      if c = "" ∨ c = "." then acc
      else if c = ".." then acc.dropLast
      else acc ++ [c]) []

/-- Model of `os.path.commonpath` on two absolute paths: the longest common
component prefix. (With two absolute inputs the Python `ValueError` branch
is unreachable.) -/
def commonpath : List String → List String → List String
  | a :: as, b :: bs => if a = b then a :: commonpath as bs else []
  | _, _ => []

/-- Direct translation of `_is_subpath`: canonicalize both paths and require
that their common path is exactly the parent. -/
def _is_subpath (child parent : List String) : Bool :=
  let child_real := realpathComps child
  let parent_real := realpathComps parent
  commonpath child_real parent_real = parent_real

/-- Extension part of `os.path.splitext` on a basename: the suffix from the
last dot, unless every character before that dot is itself a dot. -/
def extOfBase (b : List Char) : List Char :=
  match ((List.range b.length).filter (fun i => b[i]? == some '.')).getLast? with
  | none => []
  | some i => if (b.take i).all (fun c => c == '.') then [] else b.drop i

/-- Extension of a path given as a component list (`os.path.splitext(...)[1]`). -/
def extOfPath (p : List String) : String :=
  ⟨extOfBase (p.getLastD "").toList⟩

/-- The `if not target.startswith("/"): target = "/"` normalization. -/
def forceSlash (t : String) : String :=
  if startsWithSlash t = false then "/" else t

/-- The decoded target the handler works with: leading slash forced, then
percent-decoded (in this order, as in the source). -/
def decodeTarget (t : String) : String := unquote (forceSlash t)

/-- Filesystem resolution of a decoded target:
`os.path.realpath(os.path.join(os.path.join(content_dir, "public"), target.lstrip("/")))`. -/
def resolveTarget (content_dir : List String) (target : String) : List String :=
  realpathComps (content_dir ++ ["public"] ++ splitChar '/' (lstripSlash target))

/-! ## Filesystem abstraction -/

/-- Kind of a filesystem node. -/
inductive FKind | dir | file
deriving DecidableEq

/-- Abstract snapshot of the filesystem, queried at canonical paths.
`kind` answers `os.path.isdir` / `os.path.isfile` (`none` means the path
does not exist); `listdir` returns `none` when `os.listdir` raises
`OSError`; `size` is `os.path.getsize`; `readFile` returns `none` when
`open`/`read` raises `OSError`. -/
structure FS where
  kind : List String → Option FKind
  listdir : List String → Option (List String)
  size : List String → Nat
  readFile : List String → Option String

/-! ## Configuration constants from the source -/

def ALLOWED_EXTENSIONS : List String := [".html", ".png", ".jpg", ".pdf"]

def VISIBLE_FILES : List String := ["index.html", "Syllabus PR FAF-23x -2.pdf"]

def VISIBLE_DIRS : List String := ["books", "docs", "mercedes", "report_pics"]

/-- Model of `mimetypes.guess_type` restricted to the extensions registered
by the source's `add_type` calls; the handler only consults it after the
`ALLOWED_EXTENSIONS` check, so only these four extensions are reachable. -/
def guess_type (path : List String) : Option String :=
  let ext := lowerStr (extOfPath path)
  if ext = ".html" then some "text/html; charset=utf-8"
  else if ext = ".png" then some "image/png"
  else if ext = ".jpg" then some "image/jpeg"
  else if ext = ".pdf" then some "application/pdf"
  else none

/-! ## `file_size`: human-readable sizes

The source formats `num_bytes / 1024**k` with Python's `f"{x:.1f}"`; the
model computes the same one-decimal rendering with exact rational rounding
(round half up) instead of binary floating point. -/

/-- One-decimal rendering of `numer / denom`. -/
def fmt1 (numer denom : Nat) : String :=
  let t := (10 * numer + denom / 2) / denom
  toString (t / 10) ++ "." ++ toString (t % 10)

/-- Translation of `file_size`. -/
def file_size (num_bytes : Nat) : String :=
  if num_bytes < 1024 then fmt1 num_bytes 1 ++ " B"
  else if num_bytes < 1024 ^ 2 then fmt1 num_bytes 1024 ++ " KB"
  else if num_bytes < 1024 ^ 3 then fmt1 num_bytes (1024 ^ 2) ++ " MB"
  else if num_bytes < 1024 ^ 4 then fmt1 num_bytes (1024 ^ 3) ++ " GB"
  else fmt1 num_bytes (1024 ^ 4) ++ " TB"

/-! ## Directory listing (`_minimal_listing_html`) -/

/-- One `<tr>` row of the listing for a directory entry, exactly as built
in the loop body of `_minimal_listing_html`. -/
def rowHtml (fs : FS) (counts : String → Nat) (req_path : String)
    (abs_dir : List String) (name : String) : String :=
  let full := abs_dir ++ [name]
  let is_directory := fs.kind full = some FKind.dir
  let href := if is_directory then pyQuote name ++ "/" else pyQuote name
  let size := if is_directory then "—" else file_size (fs.size full)
  let child_req_path := req_path ++ (if is_directory then name ++ "/" else name)
  let hits := counts child_req_path
  "<tr><td><a href=\"" ++ href ++ "\">" ++
    (if ¬ is_directory then name else name ++ "/") ++ "</a></td>" ++
    "<td>" ++ size ++ "</td><td>" ++ toString hits ++ "</td></tr>"

/-- The entry loop of `_minimal_listing_html`: at the root listing (`/` or
`/public/`) entries outside the visible sets are skipped (`continue`),
otherwise every entry yields a row. -/
def listingRows (fs : FS) (counts : String → Nat) (req_path : String)
    (abs_dir : List String) : List String → List String
  | [] => []
  | name :: rest =>
    let is_directory := fs.kind (abs_dir ++ [name]) = some FKind.dir
    if (req_path = "/" ∨ req_path = "/public/") ∧
        (if is_directory then name ∉ VISIBLE_DIRS else name ∉ VISIBLE_FILES) then
      listingRows fs counts req_path abs_dir rest
    else
      rowHtml fs counts req_path abs_dir name :: listingRows fs counts req_path abs_dir rest

/-- Python `req_path.rstrip("/")`. -/
def rstripSlash (s : String) : String :=
  ⟨(s.toList.reverse.dropWhile (fun c => c == '/')).reverse⟩

/-- Python `s.rsplit("/", 1)[0]`. -/
def beforeLastSlash (s : String) : String :=
  let ps := splitChar '/' s
  if ps.length ≤ 1 then s else joinWith "/" ps.dropLast

/-- The parent link target computed by `_minimal_listing_html`. -/
def parentOf (req_path : String) : String :=
  let parent := beforeLastSlash (rstripSlash req_path)
  if parent = "" then "/" else parent ++ "/"

/-- Translation of `_minimal_listing_html`. -/
def _minimal_listing_html (fs : FS) (counts : String → Nat)
    (req_path : String) (abs_dir : List String) : String :=
  match fs.listdir abs_dir with
  | none => "<html><body><h1>Forbidden</h1></body></html>"
  | some entryNames =>
    let entries := sortStrs entryNames
    let headLines : List String :=
      ["<!DOCTYPE html>", "<html lang='en'>", "<head>",
       "<meta charset='utf-8'>",
       "<meta name='viewport' content='width=device-width, initial-scale=1'>",
       "<title>Content of " ++ req_path ++ "</title>",
       "</head>", "<body>",
       "<h1>Filip</h1>",
       "<h2>Content of " ++ req_path ++ "</h2>",
       "<main>"]
    let parentLines : List String :=
      if req_path ≠ "/" then
        ["<a href=\"" ++ pyQuote (parentOf req_path) ++ "\">⬆ Parent directory</a>"]
      else []
    let tableHead : List String :=
      ["<table border='1'>", "<tr><th>Name</th><th>Size</th><th>Hits</th></tr>"]
    let rows := listingRows fs counts req_path abs_dir entries
    joinWith "\n"
      (headLines ++ parentLines ++ tableHead ++ rows ++ ["</table></main></body></html>"])

/-! ## Responses -/

/-- A response: status line text, header list in emission order, body. -/
structure Response where
  status : String
  headers : List (String × String)
  body : String
deriving DecidableEq

def body429 : String :=
  "<!DOCTYPE html>\n    <html>\n    <head>\n        <title>429 Too Many Requests</title>\n    </head>\n    <body>\n        <h1>429 Too Many Requests</h1>\n        <p>Please slow down and try again later.</p>\n    </body>\n    </html>"

/-- Translation of `_respond_429`. -/
def _respond_429 : Response :=
  { status := "429 Too Many Requests"
    headers := [("Content-Type", "text/html; charset=utf-8"),
                ("Retry-After", "1"),
                ("Content-Length", toString body429.length),
                ("Connection", "close")]
    body := body429 }

def body404 : String :=
  "<!DOCTYPE html>\n    <html>\n    <head>\n        <title>404 Not Found</title>\n    </head>\n    <body>\n        <h1>404 Not Found</h1>\n        <p>The requested page does not exist.</p>\n        <a href=\"/\">Return to homepage</a>\n    </body>\n    </html>"

/-- Translation of `_respond_404`. -/
def _respond_404 : Response :=
  { status := "404 Not Found"
    headers := [("Content-Type", "text/html; charset=utf-8"),
                ("Content-Length", toString body404.length),
                ("Connection", "close")]
    body := body404 }

/-- Translation of `_respond_301`. -/
def _respond_301 (location : String) : Response :=
  let body := "<html><body>Moved: <a href=\"" ++ location ++ "\">" ++ location ++ "</a></body></html>"
  { status := "301 Moved Permanently"
    headers := [("Location", location),
                ("Content-Type", "text/html; charset=utf-8"),
                ("Content-Length", toString body.length),
                ("Connection", "close")]
    body := body }

/-- The inline 400 response of `_serve_connection`. -/
def respond400 : Response :=
  { status := "400 Bad Request"
    headers := [("Content-Type", "text/plain"), ("Connection", "close")]
    body := "Bad Request" }

/-- The inline 405 response of `_serve_connection`. -/
def respond405 : Response :=
  { status := "405 Method Not Allowed"
    headers := [("Allow", "GET"), ("Content-Type", "text/plain"), ("Connection", "close")]
    body := "Only GET is allowed" }

/-- The inline 500 response of `_serve_connection`. -/
def respond500 : Response :=
  { status := "500 Internal Server Error"
    headers := [("Content-Type", "text/plain"), ("Connection", "close")]
    body := "Internal Server Error" }

/-- The inline 200 listing response of `_serve_connection`. -/
def respond200Listing (body : String) : Response :=
  { status := "200 OK"
    headers := [("Content-Type", "text/html; charset=utf-8"),
                ("Content-Length", toString body.length),
                ("Connection", "close")]
    body := body }

/-- The inline 200 file response of `_serve_connection`. -/
def respond200File (mime_type body : String) : Response :=
  { status := "200 OK"
    headers := [("Content-Type", mime_type),
                ("Content-Length", toString body.length),
                ("Connection", "close")]
    body := body }

/-! ## The connection handler -/

/-- Outcome of one connection: the peer closed before sending anything
(`silent`), or exactly one response was sent. -/
inductive ServeResult
  | silent
  | resp (r : Response)
deriving DecidableEq

/-- The part of `_serve_connection` from `_bump_count(target)` onward, as a
function of the decoded target: traversal guard, directory/file dispatch,
extension allowlist, MIME lookup, and file read. -/
def serveTarget (fs : FS) (counts : String → Nat) (content_dir : List String)
    (target : String) : Response :=
  let requested_abs := resolveTarget content_dir target
  if ¬ _is_subpath requested_abs content_dir then _respond_404
  else if fs.kind requested_abs = some FKind.dir then
    if endsWithSlash target = false then _respond_301 (target ++ "/")
    else respond200Listing (_minimal_listing_html fs counts target requested_abs)
  else if ¬ (fs.kind requested_abs = some FKind.file) then _respond_404
  else if ¬ (lowerStr (extOfPath requested_abs) ∈ ALLOWED_EXTENSIONS) then _respond_404
  else
    match guess_type requested_abs with
    | none => _respond_404
    | some mime_type =>
      match fs.readFile requested_abs with
      | some body => respond200File mime_type body
      | none => respond500

/-- Translation of `_serve_connection`. `rateAllowed` is the value of
`allow_request(client_ip)`; `data` is the single `recv`. The second
component is the list of keys passed to `_bump_count`, in order. -/
def _serve_connection (fs : FS) (counts : String → Nat) (content_dir : List String)
    (rateAllowed : Bool) (data : String) : ServeResult × List String :=
  if rateAllowed = false then (.resp _respond_429, [])
  else if data = "" then (.silent, [])
  else
    match pySplit (firstLine data) with
    | [method, target0, _version] =>
      if method ≠ "GET" then (.resp respond405, [])
      else
        let target := decodeTarget target0
        (.resp (serveTarget fs counts content_dir target), [target])
    | _ => (.resp respond400, [])

/-! ## Rate limiter (`allow_request`)

Timestamps are modelled as rationals; the state is the per-client list of
admission timestamps (`client_requests[ip]`), initially empty. -/

def TIME_WINDOW : ℚ := 1

def REQUESTS_PER_SECOND : Nat := 5

/-- Translation of `allow_request` as a state transformer on one client's
timestamp list: prune entries older than the window, then admit (appending
`now`) iff fewer than `REQUESTS_PER_SECOND` remain. -/
def allow_request (timestamps : List ℚ) (now : ℚ) : List ℚ × Bool :=
  let pruned := timestamps.filter (fun t => now - t < TIME_WINDOW)
  if pruned.length < REQUESTS_PER_SECOND then (pruned ++ [now], true)
  else (pruned, false)

/-- Run `allow_request` over a sequence of call times, returning the final
timestamp list and the list of admitted call times. -/
def runAllow (st : List ℚ) : List ℚ → List ℚ × List ℚ
  | [] => (st, [])
  | now :: calls =>
    let step := allow_request st now
    let later := runAllow step.1 calls
    (later.1, if step.2 then now :: later.2 else later.2)

/-- Number of timestamps of `l` lying in the half-open window `(x, x + TIME_WINDOW]`. -/
def windowCount (x : ℚ) (l : List ℚ) : Nat :=
  (l.filter (fun t => x < t ∧ t ≤ x + TIME_WINDOW)).length

/-! ## Hit counter under the lock (`_bump_count`)

`_bump_count` reads the current count, sleeps 100 ms, and writes the
incremented value, all inside `with COUNTS_LOCK`. The model is a labelled
transition system over N threads all bumping the same key: acquiring the
lock and reading is one atomic step, writing the saved value plus one and
releasing is another. This is exactly the atomicity the Python lock
provides; the sleep only lengthens the critical section. -/

/-- Phase of one bumping thread: not yet started, holding the lock with the
read value saved, or finished. -/
inductive Phase
  | start
  | haveRead (v : Nat)
  | done
deriving DecidableEq

/-- Shared state: the counter value for the bumped key, the lock holder (a
thread index), and every thread's phase. -/
structure CState where
  count : Nat
  lock : Option Nat
  threads : List Phase
deriving DecidableEq

/-- Interleaved execution steps of `_bump_count`. `read i`: thread `i`
acquires the free lock and reads the counter. `write i`: the lock holder
writes its saved value plus one and releases the lock. -/
inductive CStep : CState → CState → Prop
  | read (s : CState) (i : Nat) (h : s.lock = none) (ht : s.threads[i]? = some Phase.start) :
      CStep s ⟨s.count, some i, s.threads.set i (Phase.haveRead s.count)⟩
  | write (s : CState) (i : Nat) (v : Nat) (h : s.lock = some i)
      (ht : s.threads[i]? = some (Phase.haveRead v)) :
      CStep s ⟨v + 1, none, s.threads.set i Phase.done⟩

/-- Initial state: counter at `c`, lock free, `n` threads about to bump. -/
def initBump (c n : Nat) : CState :=
  ⟨c, none, List.replicate n Phase.start⟩

/-- All threads have completed their `_bump_count`. -/
def allDone (s : CState) : Prop :=
  ∀ p ∈ s.threads, p = Phase.done

/-! ## Basic path lemmas -/

/-- Components produced by `realpathComps` are never `""`, `"."` or `".."`. -/
lemma realpathComps_clean (l : List String) :
    ∀ c ∈ realpathComps l, c ≠ "" ∧ c ≠ "." ∧ c ≠ ".." := by
  suffices h : ∀ (l acc : List String),
      (∀ c ∈ acc, c ≠ "" ∧ c ≠ "." ∧ c ≠ "..") →
      ∀ c ∈ l.foldl
        (fun acc c =>
          if c = "" ∨ c = "." then acc
          else if c = ".." then acc.dropLast
          else acc ++ [c]) acc, c ≠ "" ∧ c ≠ "." ∧ c ≠ ".." by
    exact h l [] (by simp)
  intro l
  induction l with
  | nil => intro acc hacc; simpa using hacc
  | cons a as ih =>
    intro acc hacc
    simp only [List.foldl_cons]
    by_cases h1 : a = "" ∨ a = "."
    · rw [if_pos h1]; exact ih acc hacc
    · rw [if_neg h1]
      by_cases h2 : a = ".."
      · rw [if_pos h2]
        exact ih acc.dropLast (fun c hc => hacc c (List.dropLast_subset acc hc))
      · rw [if_neg h2]
        refine ih (acc ++ [a]) ?_
        intro c hc
        rcases List.mem_append.mp hc with h | h
        · exact hacc c h
        · simp only [List.mem_singleton] at h
          subst h
          push_neg at h1
          exact ⟨h1.1, h1.2, h2⟩

/-- On a list with no special components, `realpathComps` is the identity. -/
lemma realpathComps_of_clean (l : List String)
    (h : ∀ c ∈ l, c ≠ "" ∧ c ≠ "." ∧ c ≠ "..") : realpathComps l = l := by
  suffices haux : ∀ (l acc : List String),
      (∀ c ∈ l, c ≠ "" ∧ c ≠ "." ∧ c ≠ "..") →
      l.foldl
        (fun acc c =>
          if c = "" ∨ c = "." then acc
          else if c = ".." then acc.dropLast
          else acc ++ [c]) acc = acc ++ l by
    simpa using haux l [] h
  intro l
  induction l with
  | nil => intro acc _; simp
  | cons a as ih =>
    intro acc hl
    obtain ⟨h1, h2, h3⟩ := hl a (by simp)
    simp only [List.foldl_cons]
    rw [if_neg (by tauto), if_neg h3, ih (acc ++ [a]) (fun c hc => hl c (by simp [hc]))]
    simp

/-- `realpathComps` is idempotent. -/
lemma realpathComps_idem (l : List String) :
    realpathComps (realpathComps l) = realpathComps l :=
  realpathComps_of_clean _ (realpathComps_clean l)

/-- The common path of a path with itself is that path. -/
lemma commonpath_self (l : List String) : commonpath l l = l := by
  induction l with
  | nil => rfl
  | cons a as ih => simp [commonpath, ih]

/-! ## Handler reduction lemmas -/

/-- An empty read yields no tokens. -/
lemma pySplit_firstLine_empty : pySplit (firstLine "") = [] := by decide

/-- A rate-rejected connection gets the fixed 429 response and bumps nothing. -/
lemma serve_rateRejected (fs : FS) (counts : String → Nat) (content_dir : List String)
    (data : String) :
    _serve_connection fs counts content_dir false data = (.resp _respond_429, []) := rfl

/-- An admitted connection whose request line parses to a GET is handled by
`serveTarget` on the decoded target, which is also the single bumped key. -/
lemma serve_get (fs : FS) (counts : String → Nat) (content_dir : List String)
    (data m t v : String)
    (hp : pySplit (firstLine data) = [m, t, v]) (hm : m = "GET") :
    _serve_connection fs counts content_dir true data =
      (.resp (serveTarget fs counts content_dir (decodeTarget t)), [decodeTarget t]) := by
  have hdata : data ≠ "" := by
    intro h
    subst h
    rw [pySplit_firstLine_empty] at hp
    exact absurd hp (by simp)
  subst hm
  unfold _serve_connection
  rw [if_neg (by simp), if_neg hdata, hp]
  rfl

/-- An admitted connection with a nonempty read whose request line has a
wrong token count gets the inline 400 response and bumps nothing. -/
lemma serve_badTokens (fs : FS) (counts : String → Nat) (content_dir : List String)
    (data : String) (hdata : data ≠ "")
    (hl : (pySplit (firstLine data)).length ≠ 3) :
    _serve_connection fs counts content_dir true data = (.resp respond400, []) := by
  unfold _serve_connection
  rw [if_neg (by simp), if_neg hdata]
  rcases h : pySplit (firstLine data) with _ | ⟨a, _ | ⟨b, _ | ⟨c, _ | ⟨d, tl⟩⟩⟩⟩ <;>
    first
      | rfl
      | (exact absurd (by simp [h]) hl)

/-- An admitted connection whose request line parses but whose method is
not GET gets the inline 405 response and bumps nothing. -/
lemma serve_nonGet (fs : FS) (counts : String → Nat) (content_dir : List String)
    (data m t v : String)
    (hp : pySplit (firstLine data) = [m, t, v]) (hm : m ≠ "GET") :
    _serve_connection fs counts content_dir true data = (.resp respond405, []) := by
  have hdata : data ≠ "" := by
    intro h
    subst h
    rw [pySplit_firstLine_empty] at hp
    exact absurd hp (by simp)
  unfold _serve_connection
  rw [if_neg (by simp), if_neg hdata, hp]
  simp [hm]

/-- When the traversal guard fails, `serveTarget` answers 404. -/
lemma serveTarget_guard (fs : FS) (counts : String → Nat) (content_dir : List String)
    (target : String)
    (hg : _is_subpath (resolveTarget content_dir target) content_dir = false) :
    serveTarget fs counts content_dir target = _respond_404 := by
  unfold serveTarget
  rw [if_pos (by simp [hg])]

/-- A directory hit without a trailing slash redirects. -/
lemma serveTarget_dir_noslash (fs : FS) (counts : String → Nat) (content_dir : List String)
    (target : String)
    (hg : _is_subpath (resolveTarget content_dir target) content_dir = true)
    (hd : fs.kind (resolveTarget content_dir target) = some FKind.dir)
    (hs : endsWithSlash target = false) :
    serveTarget fs counts content_dir target = _respond_301 (target ++ "/") := by
  unfold serveTarget
  rw [if_neg (by simp [hg]), if_pos hd, if_pos hs]

/-- A directory hit with a trailing slash renders the listing. -/
lemma serveTarget_dir_slash (fs : FS) (counts : String → Nat) (content_dir : List String)
    (target : String)
    (hg : _is_subpath (resolveTarget content_dir target) content_dir = true)
    (hd : fs.kind (resolveTarget content_dir target) = some FKind.dir)
    (hs : endsWithSlash target = true) :
    serveTarget fs counts content_dir target =
      respond200Listing
        (_minimal_listing_html fs counts target (resolveTarget content_dir target)) := by
  unfold serveTarget
  rw [if_neg (by simp [hg]), if_pos hd, if_neg (by simp [hs])]

/-- A regular file with a disallowed extension gets 404. -/
lemma serveTarget_badext (fs : FS) (counts : String → Nat) (content_dir : List String)
    (target : String)
    (hg : _is_subpath (resolveTarget content_dir target) content_dir = true)
    (hf : fs.kind (resolveTarget content_dir target) = some FKind.file)
    (he : lowerStr (extOfPath (resolveTarget content_dir target)) ∉ ALLOWED_EXTENSIONS) :
    serveTarget fs counts content_dir target = _respond_404 := by
  unfold serveTarget
  rw [if_neg (by simp [hg]), if_neg (by simp [hf]), if_neg (by simp [hf]), if_pos he]

/-- `_is_subpath` holds for a canonical path against any path it canonicalizes
to: the result of `realpathComps` passes the guard against its own source. -/
lemma is_subpath_realpath_self (content_dir : List String) :
    _is_subpath (realpathComps content_dir) content_dir = true := by
  simp [_is_subpath, realpathComps_idem, commonpath_self]

/-- A guarded path that is neither a directory nor a regular file gets 404. -/
lemma serveTarget_notfile (fs : FS) (counts : String → Nat) (content_dir : List String)
    (target : String)
    (hg : _is_subpath (resolveTarget content_dir target) content_dir = true)
    (hd : fs.kind (resolveTarget content_dir target) ≠ some FKind.dir)
    (hf : fs.kind (resolveTarget content_dir target) ≠ some FKind.file) :
    serveTarget fs counts content_dir target = _respond_404 := by
  unfold serveTarget
  rw [if_neg (by simp [hg]), if_neg hd, if_pos hf]

/-- A regular file with an allowed extension runs the MIME lookup and read. -/
lemma serveTarget_file (fs : FS) (counts : String → Nat) (content_dir : List String)
    (target : String)
    (hg : _is_subpath (resolveTarget content_dir target) content_dir = true)
    (hf : fs.kind (resolveTarget content_dir target) = some FKind.file)
    (he : lowerStr (extOfPath (resolveTarget content_dir target)) ∈ ALLOWED_EXTENSIONS) :
    serveTarget fs counts content_dir target =
      (match guess_type (resolveTarget content_dir target) with
       | none => _respond_404
       | some mime_type =>
         match fs.readFile (resolveTarget content_dir target) with
         | some body => respond200File mime_type body
         | none => respond500) := by
  unfold serveTarget
  rw [if_neg (by simp [hg]), if_neg (by simp [hf]), if_neg (by simp [hf]),
    if_neg (by simp [he])]

/-- Every `serveTarget` outcome is one of the five response shapes. -/
lemma serveTarget_cases (fs : FS) (counts : String → Nat) (content_dir : List String)
    (target : String) :
    serveTarget fs counts content_dir target = _respond_404 ∨
    serveTarget fs counts content_dir target = _respond_301 (target ++ "/") ∨
    (∃ b, serveTarget fs counts content_dir target = respond200Listing b) ∨
    (∃ m b, serveTarget fs counts content_dir target = respond200File m b) ∨
    serveTarget fs counts content_dir target = respond500 := by
  by_cases hg : _is_subpath (resolveTarget content_dir target) content_dir = true
  · by_cases hd : fs.kind (resolveTarget content_dir target) = some FKind.dir
    · by_cases hs : endsWithSlash target = false
      · exact Or.inr (Or.inl (serveTarget_dir_noslash fs counts content_dir target hg hd hs))
      · exact Or.inr (Or.inr (Or.inl
          ⟨_minimal_listing_html fs counts target (resolveTarget content_dir target),
            serveTarget_dir_slash fs counts content_dir target hg hd
              (by revert hs; cases endsWithSlash target <;> simp)⟩))
    · by_cases hf : fs.kind (resolveTarget content_dir target) = some FKind.file
      · by_cases he : lowerStr (extOfPath (resolveTarget content_dir target)) ∈ ALLOWED_EXTENSIONS
        · rw [serveTarget_file fs counts content_dir target hg hf he]
          rcases guess_type (resolveTarget content_dir target) with _ | mt
          · exact Or.inl rfl
          · rcases fs.readFile (resolveTarget content_dir target) with _ | body
            · exact Or.inr (Or.inr (Or.inr (Or.inr rfl)))
            · exact Or.inr (Or.inr (Or.inr (Or.inl ⟨mt, body, rfl⟩)))
        · exact Or.inl (serveTarget_badext fs counts content_dir target hg hf he)
      · exact Or.inl (serveTarget_notfile fs counts content_dir target hg hd hf)
  · exact Or.inl (serveTarget_guard fs counts content_dir target
      (by revert hg; cases _is_subpath (resolveTarget content_dir target) content_dir <;> simp))

/-- Every response emitted by `_serve_connection` is the 429, the 400, the
405, or an outcome of `serveTarget`. -/
lemma serve_cases (fs : FS) (counts : String → Nat) (content_dir : List String)
    (rateAllowed : Bool) (data : String) (r : Response) (bumps : List String)
    (h : _serve_connection fs counts content_dir rateAllowed data = (.resp r, bumps)) :
    r = _respond_429 ∨ r = respond400 ∨ r = respond405 ∨
    ∃ target, r = serveTarget fs counts content_dir target := by
  cases rateAllowed with
  | false =>
    rw [serve_rateRejected] at h
    obtain ⟨h1, -⟩ := Prod.mk.injEq .. ▸ h
    cases h1
    exact Or.inl rfl
  | true =>
    by_cases hd : data = ""
    · subst hd
      have hsil : _serve_connection fs counts content_dir true "" = (.silent, []) := rfl
      rw [hsil] at h
      exact absurd (congrArg Prod.fst h) (by simp)
    · by_cases hl : (pySplit (firstLine data)).length = 3
      · rcases hp : pySplit (firstLine data) with _ | ⟨a, _ | ⟨b, _ | ⟨c, _ | ⟨e, tl⟩⟩⟩⟩ <;>
          rw [hp] at hl <;> simp at hl
        by_cases hm : a = "GET"
        · rw [serve_get fs counts content_dir data a b c hp hm] at h
          refine Or.inr (Or.inr (Or.inr ⟨decodeTarget b, ?_⟩))
          have := congrArg Prod.fst h
          simp only [Prod.fst] at this
          cases this
          rfl
        · rw [serve_nonGet fs counts content_dir data a b c hp hm] at h
          have := congrArg Prod.fst h
          simp only [Prod.fst] at this
          cases this
          exact Or.inr (Or.inr (Or.inl rfl))
      · rw [serve_badTokens fs counts content_dir data hd hl] at h
        have := congrArg Prod.fst h
        simp only [Prod.fst] at this
        cases this
        exact Or.inr (Or.inl rfl)

/-! ## Concrete fixtures used by the witnesses -/

/-- An empty filesystem. -/
def fs0 : FS :=
  ⟨fun _ => none, fun _ => none, fun _ => 0, fun _ => none⟩

/-- The empty hit-count table. -/
def counts0 : String → Nat := fun _ => 0

/-- A filesystem with one directory `books` under `/srv/public`. -/
def fsBooks : FS :=
  ⟨fun p => if p = ["srv", "public", "books"] then some FKind.dir else none,
   fun p => if p = ["srv", "public", "books"] then some [] else none,
   fun _ => 0, fun _ => none⟩

/-- A filesystem with one readable text file `notes.txt` under `/srv/public`. -/
def fsTxt : FS :=
  ⟨fun p => if p = ["srv", "public", "notes.txt"] then some FKind.file else none,
   fun _ => none, fun _ => 5,
   fun p => if p = ["srv", "public", "notes.txt"] then some "hello" else none⟩

/-- A filesystem where the content root `/srv` itself is a listable directory. -/
def fsRoot : FS :=
  ⟨fun p => if p = ["srv"] then some FKind.dir else none,
   fun p => if p = ["srv"] then some [] else none,
   fun _ => 0, fun _ => none⟩

/-! ## Claims -/

/-- C1: for every admitted GET request whose target, after percent-decoding,
joining under the public root, and canonicalization, is not a descendant of
the content root (the `_is_subpath` guard fails), the connection handler
responds with the fixed 404 response — in particular never 200 or 500 —
and this is the only bump recorded. -/
theorem C1_traversal_guard (fs : FS) (counts : String → Nat)
    (content_dir : List String) (data m t v : String)
    (hp : pySplit (firstLine data) = [m, t, v]) (hm : m = "GET")
    (hg : _is_subpath (resolveTarget content_dir (decodeTarget t)) content_dir = false) :
    _serve_connection fs counts content_dir true data =
      (.resp _respond_404, [decodeTarget t]) ∧
    _respond_404.status = "404 Not Found" ∧
    _respond_404.status ≠ "200 OK" ∧
    _respond_404.status ≠ "500 Internal Server Error" := by
  refine ⟨?_, rfl, by decide, by decide⟩
  rw [serve_get fs counts content_dir data m t v hp hm,
    serveTarget_guard fs counts content_dir _ hg]

set_option maxRecDepth 4000 in
/-- Witness for C1: `/../../etc/passwd` resolves outside `/srv` and gets 404. -/
theorem C1_traversal_guard_witness :
    _serve_connection fs0 counts0 ["srv"] true "GET /../../etc/passwd HTTP/1.1" =
      (.resp _respond_404, ["/../../etc/passwd"]) :=
  (C1_traversal_guard fs0 counts0 ["srv"] "GET /../../etc/passwd HTTP/1.1"
    "GET" "/../../etc/passwd" "HTTP/1.1" (by decide) rfl (by decide)).1

/-- C2 fails as stated: the inline 400 response (and likewise 405 and 500)
carries `Connection: close` but no `Content-Length` header, exhibited here
on a concrete malformed request. -/
theorem C2_counterexample :
    (_serve_connection fs0 counts0 ["srv"] true "X\r\n").1 = .resp respond400 ∧
    respond400.status = "400 Bad Request" ∧
    (∀ kv ∈ respond400.headers, kv.1 ≠ "Content-Length") := by
  exact ⟨by decide, rfl, by decide⟩

set_option maxRecDepth 8000 in
/-- C2 (amended): every response the server sends includes `Connection:
close`; every response other than the 400, 405 and 500 ones also includes
a `Content-Length` header, while those three omit it. -/
theorem C2_headers (fs : FS) (counts : String → Nat) (content_dir : List String)
    (rateAllowed : Bool) (data : String) (r : Response) (bumps : List String)
    (h : _serve_connection fs counts content_dir rateAllowed data = (.resp r, bumps)) :
    ("Connection", "close") ∈ r.headers ∧
    (r.status ≠ "400 Bad Request" → r.status ≠ "405 Method Not Allowed" →
      r.status ≠ "500 Internal Server Error" →
      ∃ n, ("Content-Length", n) ∈ r.headers) ∧
    (r.status = "400 Bad Request" ∨ r.status = "405 Method Not Allowed" ∨
        r.status = "500 Internal Server Error" →
      ∀ kv ∈ r.headers, kv.1 ≠ "Content-Length") := by
  rcases serve_cases fs counts content_dir rateAllowed data r bumps h with
    h429 | h400 | h405 | ⟨target, htgt⟩
  · subst h429
    exact ⟨by decide, fun _ _ _ => ⟨toString body429.length, by decide⟩, by decide⟩
  · subst h400
    exact ⟨by decide, fun hc _ _ => absurd rfl hc, fun _ => by decide⟩
  · subst h405
    exact ⟨by decide, fun _ hc _ => absurd rfl hc, fun _ => by decide⟩
  · rcases serveTarget_cases fs counts content_dir target with
      h4 | h3 | ⟨b, h2⟩ | ⟨mt, b, h2⟩ | h5 <;> rw [htgt]
    · rw [h4]
      exact ⟨by decide, fun _ _ _ => ⟨toString body404.length, by decide⟩, by decide⟩
    · rw [h3]
      refine ⟨by simp [_respond_301],
        fun _ _ _ => ⟨toString (_respond_301 (target ++ "/")).body.length,
          by simp [_respond_301]⟩, ?_⟩
      intro hc
      simp [_respond_301] at hc
    · rw [h2]
      refine ⟨by simp [respond200Listing],
        fun _ _ _ => ⟨toString b.length, by simp [respond200Listing]⟩, ?_⟩
      intro hc
      simp [respond200Listing] at hc
    · rw [h2]
      refine ⟨by simp [respond200File],
        fun _ _ _ => ⟨toString b.length, by simp [respond200File]⟩, ?_⟩
      intro hc
      simp [respond200File] at hc
    · rw [h5]
      exact ⟨by decide, fun _ _ hc => absurd rfl hc, fun _ => by decide⟩

/-- Witness for the amended C2 at the concrete rate-rejected 429 response. -/
theorem C2_headers_witness :
    ("Connection", "close") ∈ _respond_429.headers ∧
    (_respond_429.status ≠ "400 Bad Request" → _respond_429.status ≠ "405 Method Not Allowed" →
      _respond_429.status ≠ "500 Internal Server Error" →
      ∃ n, ("Content-Length", n) ∈ _respond_429.headers) ∧
    (_respond_429.status = "400 Bad Request" ∨ _respond_429.status = "405 Method Not Allowed" ∨
        _respond_429.status = "500 Internal Server Error" →
      ∀ kv ∈ _respond_429.headers, kv.1 ≠ "Content-Length") :=
  C2_headers fs0 counts0 ["srv"] false "" _respond_429 [] rfl

/-- C4: an admitted GET request that parses into three tokens records
exactly one hit, keyed by the decoded target (leading slash forced before
decoding), whatever the filesystem and hence whatever the final outcome
(404, 301, listing, 200, 500) — resolution cannot influence the already
recorded bump; rate-rejected, malformed, and non-GET requests record none. -/
theorem C4_hit_recording :
    (∀ (fs : FS) (counts : String → Nat) (content_dir : List String) (data m t v : String),
      pySplit (firstLine data) = [m, t, v] → m = "GET" →
      (_serve_connection fs counts content_dir true data).2 = [decodeTarget t]) ∧
    (∀ (fs : FS) (counts : String → Nat) (content_dir : List String) (data : String),
      (_serve_connection fs counts content_dir false data).2 = []) ∧
    (∀ (fs : FS) (counts : String → Nat) (content_dir : List String) (data : String),
      (pySplit (firstLine data)).length ≠ 3 →
      (_serve_connection fs counts content_dir true data).2 = []) ∧
    (∀ (fs : FS) (counts : String → Nat) (content_dir : List String) (data m t v : String),
      pySplit (firstLine data) = [m, t, v] → m ≠ "GET" →
      (_serve_connection fs counts content_dir true data).2 = []) := by
  refine ⟨?_, ?_, ?_, ?_⟩
  · intro fs counts content_dir data m t v hp hm
    rw [serve_get fs counts content_dir data m t v hp hm]
  · intro fs counts content_dir data
    rw [serve_rateRejected]
  · intro fs counts content_dir data hl
    by_cases hd : data = ""
    · subst hd; rfl
    · rw [serve_badTokens fs counts content_dir data hd hl]
  · intro fs counts content_dir data m t v hp hm
    rw [serve_nonGet fs counts content_dir data m t v hp hm]

set_option maxRecDepth 4000 in
/-- Witness for C4 at concrete requests: one bump for an admitted GET (even
though the path yields 404 on the empty filesystem), none for a rejected,
malformed, or POST request. -/
theorem C4_hit_recording_witness :
    (_serve_connection fs0 counts0 ["srv"] true "GET /a%20b HTTP/1.1").2 = ["/a b"] ∧
    (_serve_connection fs0 counts0 ["srv"] false "GET /a HTTP/1.1").2 = [] ∧
    (_serve_connection fs0 counts0 ["srv"] true "GET /a").2 = [] ∧
    (_serve_connection fs0 counts0 ["srv"] true "POST /a HTTP/1.1").2 = [] :=
  ⟨C4_hit_recording.1 fs0 counts0 ["srv"] "GET /a%20b HTTP/1.1" "GET" "/a%20b" "HTTP/1.1"
      (by decide) rfl,
   C4_hit_recording.2.1 fs0 counts0 ["srv"] "GET /a HTTP/1.1",
   C4_hit_recording.2.2.1 fs0 counts0 ["srv"] "GET /a" (by decide),
   C4_hit_recording.2.2.2 fs0 counts0 ["srv"] "POST /a HTTP/1.1" "POST" "/a" "HTTP/1.1"
      (by decide) (by decide)⟩

/-- C5: an admitted GET whose guarded resolution is a directory gets a 301
redirect to the target plus `/` (with a matching `Location` header) when the
target lacks a trailing slash, and a 200 response carrying the rendered
directory listing when it has one. -/
theorem C5_directory_redirect_and_listing :
    (∀ (fs : FS) (counts : String → Nat) (content_dir : List String) (data m t v : String),
      pySplit (firstLine data) = [m, t, v] → m = "GET" →
      _is_subpath (resolveTarget content_dir (decodeTarget t)) content_dir = true →
      fs.kind (resolveTarget content_dir (decodeTarget t)) = some FKind.dir →
      endsWithSlash (decodeTarget t) = false →
      _serve_connection fs counts content_dir true data =
        (.resp (_respond_301 (decodeTarget t ++ "/")), [decodeTarget t]) ∧
      (_respond_301 (decodeTarget t ++ "/")).status = "301 Moved Permanently" ∧
      ("Location", decodeTarget t ++ "/") ∈ (_respond_301 (decodeTarget t ++ "/")).headers) ∧
    (∀ (fs : FS) (counts : String → Nat) (content_dir : List String) (data m t v : String),
      pySplit (firstLine data) = [m, t, v] → m = "GET" →
      _is_subpath (resolveTarget content_dir (decodeTarget t)) content_dir = true →
      fs.kind (resolveTarget content_dir (decodeTarget t)) = some FKind.dir →
      endsWithSlash (decodeTarget t) = true →
      _serve_connection fs counts content_dir true data =
        (.resp (respond200Listing (_minimal_listing_html fs counts (decodeTarget t)
          (resolveTarget content_dir (decodeTarget t)))), [decodeTarget t]) ∧
      (respond200Listing (_minimal_listing_html fs counts (decodeTarget t)
        (resolveTarget content_dir (decodeTarget t)))).status = "200 OK") := by
  constructor
  · intro fs counts content_dir data m t v hp hm hg hd hs
    refine ⟨?_, rfl, by simp [_respond_301]⟩
    rw [serve_get fs counts content_dir data m t v hp hm,
      serveTarget_dir_noslash fs counts content_dir _ hg hd hs]
  · intro fs counts content_dir data m t v hp hm hg hd hs
    refine ⟨?_, rfl⟩
    rw [serve_get fs counts content_dir data m t v hp hm,
      serveTarget_dir_slash fs counts content_dir _ hg hd hs]

set_option maxRecDepth 4000 in
/-- Witness for C5: `/books` redirects to `/books/`, `/books/` is listed. -/
theorem C5_directory_redirect_and_listing_witness :
    _serve_connection fsBooks counts0 ["srv"] true "GET /books HTTP/1.1" =
      (.resp (_respond_301 "/books/"), ["/books"]) ∧
    _serve_connection fsBooks counts0 ["srv"] true "GET /books/ HTTP/1.1" =
      (.resp (respond200Listing (_minimal_listing_html fsBooks counts0 "/books/"
        ["srv", "public", "books"])), ["/books/"]) :=
  ⟨(C5_directory_redirect_and_listing.1 fsBooks counts0 ["srv"] "GET /books HTTP/1.1"
      "GET" "/books" "HTTP/1.1" (by decide) rfl (by decide) (by decide) (by decide)).1,
   (C5_directory_redirect_and_listing.2 fsBooks counts0 ["srv"] "GET /books/ HTTP/1.1"
      "GET" "/books/" "HTTP/1.1" (by decide) rfl (by decide) (by decide) (by decide)).1⟩

/-- C6: an admitted request (with a nonempty read) whose first line does not
split into exactly three tokens gets the inline 400 response; a well-formed
request line with a non-GET method gets the inline 405 response carrying
`Allow: GET`. -/
theorem C6_bad_request_and_method :
    (∀ (fs : FS) (counts : String → Nat) (content_dir : List String) (data : String),
      data ≠ "" → (pySplit (firstLine data)).length ≠ 3 →
      _serve_connection fs counts content_dir true data = (.resp respond400, []) ∧
      respond400.status = "400 Bad Request") ∧
    (∀ (fs : FS) (counts : String → Nat) (content_dir : List String) (data m t v : String),
      pySplit (firstLine data) = [m, t, v] → m ≠ "GET" →
      _serve_connection fs counts content_dir true data = (.resp respond405, []) ∧
      respond405.status = "405 Method Not Allowed" ∧
      ("Allow", "GET") ∈ respond405.headers) := by
  constructor
  · intro fs counts content_dir data hd hl
    exact ⟨serve_badTokens fs counts content_dir data hd hl, rfl⟩
  · intro fs counts content_dir data m t v hp hm
    exact ⟨serve_nonGet fs counts content_dir data m t v hp hm, rfl, by decide⟩

/-- Witness for C6 at a one-token request and a POST request. -/
theorem C6_bad_request_and_method_witness :
    (_serve_connection fs0 counts0 ["srv"] true "junk" = (.resp respond400, []) ∧
      respond400.status = "400 Bad Request") ∧
    (_serve_connection fs0 counts0 ["srv"] true "POST / HTTP/1.1" = (.resp respond405, []) ∧
      respond405.status = "405 Method Not Allowed" ∧
      ("Allow", "GET") ∈ respond405.headers) :=
  ⟨C6_bad_request_and_method.1 fs0 counts0 ["srv"] "junk" (by decide) (by decide),
   C6_bad_request_and_method.2 fs0 counts0 ["srv"] "POST / HTTP/1.1" "POST" "/" "HTTP/1.1"
      (by decide) (by decide)⟩

/-- C7: an admitted GET whose guarded resolution is an existing regular file
whose lowercased extension is outside the allowlist gets 404, even when the
file is readable. -/
theorem C7_extension_allowlist (fs : FS) (counts : String → Nat)
    (content_dir : List String) (data m t v content : String)
    (hp : pySplit (firstLine data) = [m, t, v]) (hm : m = "GET")
    (hg : _is_subpath (resolveTarget content_dir (decodeTarget t)) content_dir = true)
    (hf : fs.kind (resolveTarget content_dir (decodeTarget t)) = some FKind.file)
    (he : lowerStr (extOfPath (resolveTarget content_dir (decodeTarget t))) ∉ ALLOWED_EXTENSIONS)
    (_hr : fs.readFile (resolveTarget content_dir (decodeTarget t)) = some content) :
    _serve_connection fs counts content_dir true data =
      (.resp _respond_404, [decodeTarget t]) ∧
    _respond_404.status = "404 Not Found" := by
  refine ⟨?_, rfl⟩
  rw [serve_get fs counts content_dir data m t v hp hm,
    serveTarget_badext fs counts content_dir _ hg hf he]

set_option maxRecDepth 4000 in
/-- Witness for C7: the existing readable `/notes.txt` still gets 404. -/
theorem C7_extension_allowlist_witness :
    _serve_connection fsTxt counts0 ["srv"] true "GET /notes.txt HTTP/1.1" =
      (.resp _respond_404, ["/notes.txt"]) :=
  (C7_extension_allowlist fsTxt counts0 ["srv"] "GET /notes.txt HTTP/1.1"
    "GET" "/notes.txt" "HTTP/1.1" "hello" (by decide) rfl (by decide) (by decide)
    (by decide) (by decide)).1

/-- C8: the listing rows are exactly the rows of the visible entries when
the request path is `/` or `/public/` (directories filtered by
`VISIBLE_DIRS`, files by `VISIBLE_FILES`), and the rows of every entry,
unfiltered, for any other request path. -/
theorem C8_root_listing_filter (fs : FS) (counts : String → Nat)
    (req_path : String) (abs_dir : List String) (entries : List String) :
    listingRows fs counts req_path abs_dir entries =
      ((if req_path = "/" ∨ req_path = "/public/" then
          entries.filter (fun name =>
            if fs.kind (abs_dir ++ [name]) = some FKind.dir then
              decide (name ∈ VISIBLE_DIRS)
            else
              decide (name ∈ VISIBLE_FILES))
        else entries).map (rowHtml fs counts req_path abs_dir)) := by
  induction entries with
  | nil => by_cases hroot : req_path = "/" ∨ req_path = "/public/" <;>
      simp [listingRows, hroot]
  | cons name rest ih =>
    by_cases hroot : req_path = "/" ∨ req_path = "/public/"
    · rw [if_pos hroot] at ih ⊢
      by_cases hd : fs.kind (abs_dir ++ [name]) = some FKind.dir
      · by_cases hv : name ∈ VISIBLE_DIRS
        · rw [listingRows, if_neg (by simp [hd, hv]), List.filter_cons,
            if_pos (by simp [hd, hv]), List.map_cons, ih]
        · rw [listingRows, if_pos ⟨hroot, by simp [hd, hv]⟩, List.filter_cons,
            if_neg (by simp [hd, hv]), ih]
      · by_cases hv : name ∈ VISIBLE_FILES
        · rw [listingRows, if_neg (by simp [hd, hv]), List.filter_cons,
            if_pos (by simp [hd, hv]), List.map_cons, ih]
        · rw [listingRows, if_pos ⟨hroot, by simp [hd, hv]⟩, List.filter_cons,
            if_neg (by simp [hd, hv]), ih]
    · rw [if_neg hroot] at ih ⊢
      rw [listingRows, if_neg (by tauto), List.map_cons, ih]

/-- C10: the guard accepts a path against itself (`commonpath` of equal
paths is that path), so a target whose canonical resolution equals the
canonical content root — such as `/../` against the public document root —
passes the traversal guard and is served as the directory listing of the
content root instead of 404. -/
theorem C10_guard_accepts_root :
    (∀ p : List String, _is_subpath p p = true) ∧
    (∀ (fs : FS) (counts : String → Nat) (content_dir : List String) (data m t v : String),
      pySplit (firstLine data) = [m, t, v] → m = "GET" →
      resolveTarget content_dir (decodeTarget t) = realpathComps content_dir →
      fs.kind (realpathComps content_dir) = some FKind.dir →
      endsWithSlash (decodeTarget t) = true →
      _serve_connection fs counts content_dir true data =
        (.resp (respond200Listing (_minimal_listing_html fs counts (decodeTarget t)
          (realpathComps content_dir))), [decodeTarget t])) := by
  constructor
  · intro p
    simp [_is_subpath, commonpath_self]
  · intro fs counts content_dir data m t v hp hm hres hd hs
    rw [serve_get fs counts content_dir data m t v hp hm,
      serveTarget_dir_slash fs counts content_dir _ (hres ▸ is_subpath_realpath_self content_dir)
        (hres ▸ hd) hs, hres]

set_option maxRecDepth 4000 in
/-- Witness for C10: `GET /../` escapes `public`, resolves to the content
root `/srv` itself, passes the guard, and is served the listing of `/srv`. -/
theorem C10_guard_accepts_root_witness :
    _is_subpath ["srv"] ["srv"] = true ∧
    _serve_connection fsRoot counts0 ["srv"] true "GET /../ HTTP/1.1" =
      (.resp (respond200Listing (_minimal_listing_html fsRoot counts0 "/../" ["srv"])),
        ["/../"]) :=
  ⟨C10_guard_accepts_root.1 ["srv"],
   C10_guard_accepts_root.2 fsRoot counts0 ["srv"] "GET /../ HTTP/1.1"
     "GET" "/../" "HTTP/1.1" (by decide) rfl (by decide) (by decide) (by decide)⟩

/-! ## Hit-counter atomicity lemmas -/

/-- Replacing a non-`done` entry by a non-`done` entry keeps the `done` count. -/
lemma count_done_set_ne (l : List Phase) (i : Nat) (a b : Phase)
    (h : l[i]? = some a) (ha : a ≠ Phase.done) (hb : b ≠ Phase.done) :
    (l.set i b).count Phase.done = l.count Phase.done := by
  induction l generalizing i with
  | nil => simp at h
  | cons x xs ih =>
    cases i with
    | zero =>
      have hx : x = a := by simpa using h
      have h1 : (x == Phase.done) = false := by
        simp only [beq_eq_false_iff_ne]
        rw [hx]
        exact ha
      have h2 : (b == Phase.done) = false := by
        simp only [beq_eq_false_iff_ne]
        exact hb
      simp [List.set_cons_zero, List.count_cons, h1, h2]
    | succ j =>
      simp only [List.getElem?_cons_succ] at h
      simp only [List.set_cons_succ, List.count_cons, ih j h]

/-- Completing a `haveRead` entry raises the `done` count by one. -/
lemma count_done_set_done (l : List Phase) (i : Nat) (v : Nat)
    (h : l[i]? = some (Phase.haveRead v)) :
    (l.set i Phase.done).count Phase.done = l.count Phase.done + 1 := by
  induction l generalizing i with
  | nil => simp at h
  | cons x xs ih =>
    cases i with
    | zero =>
      have hx : x = Phase.haveRead v := by simpa using h
      subst hx
      simp [List.set_cons_zero, List.count_cons]
    | succ j =>
      simp only [List.getElem?_cons_succ] at h
      simp only [List.set_cons_succ, List.count_cons, ih j h]
      omega

/-- Inductive invariant of the bump transition system: the counter equals
its initial value plus the number of finished threads, the thread count is
stable, and a thread that holds a read value holds the lock and its saved
value is the current counter. -/
def bumpInv (c n : Nat) (s : CState) : Prop :=
  s.threads.length = n ∧
  s.count = c + s.threads.count Phase.done ∧
  (∀ i v, s.threads[i]? = some (Phase.haveRead v) → s.lock = some i ∧ v = s.count)

/-- The invariant is preserved by every step. -/
lemma bumpInv_step {c n : Nat} {s s' : CState}
    (hinv : bumpInv c n s) (hstep : CStep s s') : bumpInv c n s' := by
  obtain ⟨hlen, hcount, hread⟩ := hinv
  cases hstep with
  | read i h ht =>
    have hi : i < s.threads.length := by
      by_contra hge
      rw [List.getElem?_eq_none (by omega)] at ht
      exact absurd ht (by simp)
    refine ⟨by simp [hlen], ?_, ?_⟩
    · simpa [count_done_set_ne s.threads i Phase.start (Phase.haveRead s.count) ht
        (by simp) (by simp)] using hcount
    · intro j w hj
      by_cases hij : i = j
      · subst hij
        rw [List.getElem?_set_self hi] at hj
        simp only [Option.some.injEq, Phase.haveRead.injEq] at hj
        exact ⟨rfl, hj.symm⟩
      · rw [List.getElem?_set_ne hij] at hj
        exact absurd (hread j w hj).1 (by simp [h])
  | write i v h ht =>
    obtain ⟨-, hv⟩ := hread i v ht
    refine ⟨by simp [hlen], ?_, ?_⟩
    · simp only [count_done_set_done s.threads i v ht]
      omega
    · intro j w hj
      by_cases hij : i = j
      · subst hij
        have hi : i < s.threads.length := by
          by_contra hge
          rw [List.getElem?_eq_none (by omega)] at ht
          exact absurd ht (by simp)
        rw [List.getElem?_set_self hi] at hj
        exact absurd hj (by simp)
      · rw [List.getElem?_set_ne hij] at hj
        have := (hread j w hj).1
        rw [h] at this
        exact absurd (Option.some.inj this) (by tauto)

/-- The invariant holds in every reachable state. -/
lemma bumpInv_reachable {c n : Nat} {s : CState}
    (h : Relation.ReflTransGen CStep (initBump c n) s) : bumpInv c n s := by
  induction h with
  | refl =>
    refine ⟨by simp [initBump], by simp [initBump, List.count_replicate], ?_⟩
    intro i v hi
    rcases lt_or_ge i n with hlt | hge
    · rw [initBump, List.getElem?_replicate, if_pos hlt] at hi
      exact absurd hi (by simp)
    · rw [initBump, List.getElem?_eq_none (by simpa using hge)] at hi
      exact absurd hi (by simp)
  | tail _ hstep ih => exact bumpInv_step ih hstep

/-- Along a reachable execution the counter never decreases. -/
lemma bump_count_mono {c n : Nat} {s s' : CState}
    (hreach : Relation.ReflTransGen CStep (initBump c n) s)
    (h : Relation.ReflTransGen CStep s s') : s.count ≤ s'.count := by
  induction h with
  | refl => exact le_refl _
  | tail hsb hstep ih =>
    refine le_trans ih ?_
    have hinv := bumpInv_reachable (Relation.ReflTransGen.trans hreach hsb)
    cases hstep with
    | read i h ht => exact le_refl _
    | write i v h ht =>
      have := (hinv.2.2 i v ht).2
      simp only [CState.count]
      omega

/-- C9: under the `COUNTS_LOCK` semantics of `_bump_count` — acquire-and-read
and write-and-release are the two atomic steps, the sleep only sits inside
the critical section — the counter of the bumped key is monotonically
non-decreasing along every execution, and every interleaving of `n`
concurrent bumps that runs to completion increases the counter by exactly
`n`: no increment is lost. -/
theorem C9_bump_count_atomic :
    (∀ (c n : Nat) (s s' : CState), Relation.ReflTransGen CStep (initBump c n) s →
      Relation.ReflTransGen CStep s s' → s.count ≤ s'.count) ∧
    (∀ (c n : Nat) (s : CState), Relation.ReflTransGen CStep (initBump c n) s →
      allDone s → s.count = c + n) := by
  constructor
  · intro c n s s' hreach h
    exact bump_count_mono hreach h
  · intro c n s hreach hdone
    obtain ⟨hlen, hcount, -⟩ := bumpInv_reachable hreach
    have : s.threads.count Phase.done = s.threads.length :=
      List.count_eq_length.mpr (fun b hb => (hdone b hb).symm)
    omega

/-- Witness for C9: a two-step execution of one thread bumping a counter at
7 ends with all threads done and the counter at 8. -/
theorem C9_bump_count_atomic_witness :
    (initBump 7 1).count ≤ (⟨8, none, [Phase.done]⟩ : CState).count ∧
    (⟨8, none, [Phase.done]⟩ : CState).count = 7 + 1 := by
  have step1 : CStep (initBump 7 1) ⟨7, some 0, [Phase.haveRead 7]⟩ :=
    CStep.read (initBump 7 1) 0 rfl rfl
  have step2 : CStep (⟨7, some 0, [Phase.haveRead 7]⟩ : CState) ⟨8, none, [Phase.done]⟩ :=
    CStep.write ⟨7, some 0, [Phase.haveRead 7]⟩ 0 7 rfl rfl
  have chain : Relation.ReflTransGen CStep (initBump 7 1) ⟨8, none, [Phase.done]⟩ :=
    Relation.ReflTransGen.head step1 (Relation.ReflTransGen.single step2)
  exact ⟨C9_bump_count_atomic.1 7 1 (initBump 7 1) ⟨8, none, [Phase.done]⟩
      Relation.ReflTransGen.refl chain,
    C9_bump_count_atomic.2 7 1 ⟨8, none, [Phase.done]⟩ chain
      (fun p hp => by simpa using hp)⟩

/-! ## Rate-limiter lemmas -/

/-- Filtering by a pointwise-weaker predicate keeps at least as many elements. -/
lemma length_filter_le_filter {α : Type} (p q : α → Bool) (l : List α)
    (h : ∀ a ∈ l, p a = true → q a = true) :
    (l.filter p).length ≤ (l.filter q).length := by
  induction l with
  | nil => simp
  | cons a as ih =>
    have ih' := ih (fun x hx hp => h x (List.mem_cons_of_mem a hx) hp)
    rw [List.filter_cons, List.filter_cons]
    by_cases hp : p a = true
    · rw [if_pos hp, if_pos (h a (List.mem_cons_self a as) hp)]
      simpa using ih'
    · rw [if_neg hp]
      by_cases hq : q a = true
      · rw [if_pos hq]
        exact le_trans ih' (by simp)
      · rw [if_neg hq]
        exact ih'

/-- Filtering by `q` after a pointwise-weaker filter `p` equals filtering by `q`. -/
lemma filter_filter_imp {α : Type} (p q : α → Bool) (l : List α)
    (h : ∀ a ∈ l, q a = true → p a = true) :
    (l.filter p).filter q = l.filter q := by
  induction l with
  | nil => simp
  | cons a as ih =>
    have ih' := ih (fun x hx hq => h x (List.mem_cons_of_mem a hx) hq)
    by_cases hq : q a = true
    · have hp := h a (List.mem_cons_self a as) hq
      rw [List.filter_cons, if_pos hp, List.filter_cons, if_pos hq,
        List.filter_cons, if_pos hq, ih']
    · by_cases hp : p a = true
      · rw [List.filter_cons, if_pos hp, List.filter_cons, if_neg hq,
          List.filter_cons, if_neg hq, ih']
      · rw [List.filter_cons, if_neg hp, List.filter_cons, if_neg hq, ih']

/-- `windowCount` is additive over list append. -/
lemma windowCount_append (x : ℚ) (l₁ l₂ : List ℚ) :
    windowCount x (l₁ ++ l₂) = windowCount x l₁ + windowCount x l₂ := by
  simp [windowCount, List.filter_append]

/-- `windowCount` of a single timestamp. -/
lemma windowCount_singleton (x now : ℚ) :
    windowCount x [now] = if x < now ∧ now ≤ x + TIME_WINDOW then 1 else 0 := by
  by_cases h : x < now ∧ now ≤ x + TIME_WINDOW
  · rw [if_pos h]
    simp only [windowCount, List.filter_cons, List.filter_nil]
    rw [if_pos (by simpa using h)]
    rfl
  · rw [if_neg h]
    simp only [windowCount, List.filter_cons, List.filter_nil]
    rw [if_neg (by simpa using h)]
    rfl

/-- `getLastD` of a nonempty list is a member of it. -/
lemma getLastD_cons_mem (a : ℚ) (l : List ℚ) (d : ℚ) :
    (a :: l).getLastD d ∈ a :: l := by
  induction l generalizing a with
  | nil => simp [List.getLastD_cons]
  | cons b bs ih =>
    rw [List.getLastD_cons]
    exact List.mem_cons_of_mem a (ih b)

/-- Main invariant of `runAllow`, by induction over the remaining calls.
Starting from the state obtained by pruning the already-admitted timestamps
`A` at the previous call time `prev`, and assuming call times are sorted and
`A` already satisfies the sliding-window bound: the final state is the
pruning of all admitted timestamps at the last call time, the bound holds
for all admitted timestamps over every window, and every admitted timestamp
is at most the last call time. -/
lemma runAllow_inv (calls : List ℚ) :
    ∀ (A : List ℚ) (prev : ℚ),
      List.Pairwise (· ≤ ·) (prev :: calls) →
      (∀ a ∈ A, a ≤ prev) →
      (∀ x, windowCount x A ≤ REQUESTS_PER_SECOND) →
      (runAllow (A.filter (fun t => prev - t < TIME_WINDOW)) calls).1 =
        (A ++ (runAllow (A.filter (fun t => prev - t < TIME_WINDOW)) calls).2).filter
          (fun t => calls.getLastD prev - t < TIME_WINDOW) ∧
      (∀ x, windowCount x
          (A ++ (runAllow (A.filter (fun t => prev - t < TIME_WINDOW)) calls).2) ≤
        REQUESTS_PER_SECOND) ∧
      (∀ a ∈ A ++ (runAllow (A.filter (fun t => prev - t < TIME_WINDOW)) calls).2,
        a ≤ calls.getLastD prev) := by
  induction calls with
  | nil =>
    intro A prev _ hA hwin
    refine ⟨by simp [runAllow], ?_, ?_⟩
    · simpa [runAllow] using hwin
    · simpa [runAllow] using hA
  | cons now rest ih =>
    intro A prev hsort hA hwin
    obtain ⟨hhead, htail⟩ := List.pairwise_cons.mp hsort
    have hpn : prev ≤ now := hhead now (List.mem_cons_self _ _)
    have hAnow : ∀ a ∈ A, a ≤ now := fun a ha => le_trans (hA a ha) hpn
    have hPP : (A.filter (fun t => prev - t < TIME_WINDOW)).filter
        (fun t => now - t < TIME_WINDOW) = A.filter (fun t => now - t < TIME_WINDOW) := by
      apply filter_filter_imp
      intro a _ hq
      simp only [decide_eq_true_eq] at hq ⊢
      linarith
    by_cases hlt : (A.filter (fun t => now - t < TIME_WINDOW)).length < REQUESTS_PER_SECOND
    · have hstep : allow_request (A.filter (fun t => prev - t < TIME_WINDOW)) now =
          (A.filter (fun t => now - t < TIME_WINDOW) ++ [now], true) := by
        simp only [allow_request]
        rw [hPP, if_pos hlt]
      have hkey : A.filter (fun t => now - t < TIME_WINDOW) ++ [now] =
          (A ++ [now]).filter (fun t => now - t < TIME_WINDOW) := by
        rw [List.filter_append]
        congr 1
        simp [List.filter_cons, TIME_WINDOW]
      have hwin' : ∀ x, windowCount x (A ++ [now]) ≤ REQUESTS_PER_SECOND := by
        intro x
        rw [windowCount_append, windowCount_singleton]
        by_cases hin : x < now ∧ now ≤ x + TIME_WINDOW
        · rw [if_pos hin]
          have h1 : windowCount x A < REQUESTS_PER_SECOND := by
            refine lt_of_le_of_lt ?_ hlt
            refine length_filter_le_filter _ _ A ?_
            intro a _ hp
            simp only [decide_eq_true_eq] at hp ⊢
            obtain ⟨hx1, _⟩ := hp
            have := hin.2
            linarith
          omega
        · rw [if_neg hin]
          have := hwin x
          omega
      have hA' : ∀ a ∈ A ++ [now], a ≤ now := by
        intro a ha
        rcases List.mem_append.mp ha with h | h
        · exact hAnow a h
        · simp only [List.mem_singleton] at h
          subst h
          exact le_refl _
      obtain ⟨ih1, ih2, ih3⟩ := ih (A ++ [now]) now htail hA' hwin'
      simp only [List.append_assoc, List.singleton_append] at ih1 ih2 ih3
      simp only [runAllow, hstep, hkey, ite_true, List.getLastD_cons]
      exact ⟨ih1, ih2, ih3⟩
    · have hstep : allow_request (A.filter (fun t => prev - t < TIME_WINDOW)) now =
          (A.filter (fun t => now - t < TIME_WINDOW), false) := by
        simp only [allow_request]
        rw [hPP, if_neg hlt]
      obtain ⟨ih1, ih2, ih3⟩ := ih A now htail hAnow hwin
      simp only [runAllow, hstep, ite_false, List.getLastD_cons]
      exact ⟨ih1, ih2, ih3⟩

/-- The invariant for a run that starts from the empty client state. -/
lemma runAllow_from_nil (h0 : ℚ) (rest : List ℚ)
    (hsort : List.Pairwise (· ≤ ·) (h0 :: rest)) :
    (runAllow [] (h0 :: rest)).1 =
      (runAllow [] (h0 :: rest)).2.filter
        (fun t => (h0 :: rest).getLastD 0 - t < TIME_WINDOW) ∧
    (∀ x, windowCount x (runAllow [] (h0 :: rest)).2 ≤ REQUESTS_PER_SECOND) ∧
    (∀ a ∈ (runAllow [] (h0 :: rest)).2, a ≤ (h0 :: rest).getLastD 0) := by
  have hsort' : List.Pairwise (· ≤ ·) (h0 :: h0 :: rest) := by
    refine List.Pairwise.cons ?_ hsort
    intro b hb
    rcases List.mem_cons.mp hb with rfl | hb'
    · exact le_refl _
    · exact (List.pairwise_cons.mp hsort).1 b hb'
  have h := runAllow_inv (h0 :: rest) [] h0 hsort' (by simp)
    (by intro x; simp [windowCount])
  simp only [List.filter_nil, List.nil_append] at h
  simp only [List.getLastD_cons] at h ⊢
  exact h

/-- `runAllow` splits over an append of call sequences. -/
lemma runAllow_append (st : List ℚ) (xs ys : List ℚ) :
    runAllow st (xs ++ ys) =
      ((runAllow (runAllow st xs).1 ys).1,
        (runAllow st xs).2 ++ (runAllow (runAllow st xs).1 ys).2) := by
  induction xs generalizing st with
  | nil => simp [runAllow]
  | cons a as ih =>
    simp only [List.cons_append, runAllow, List.append_eq]
    rw [ih]
    cases (allow_request st a).2 <;> simp

/-- Evaluation of `runAllow` on a single call. -/
lemma runAllow_single (st : List ℚ) (s : ℚ) :
    runAllow st [s] =
      ((allow_request st s).1, if (allow_request st s).2 then [s] else []) := by
  simp only [runAllow]

/-- A further call `s` made while `REQUESTS_PER_SECOND` admitted timestamps
still lie inside its window is rejected: the admitted list is unchanged and
the stored state is exactly the pruned list — no timestamp is appended. -/
lemma runAllow_reject_when_full (calls : List ℚ) (s : ℚ)
    (hsort : List.Pairwise (· ≤ ·) (calls ++ [s]))
    (hfull : REQUESTS_PER_SECOND ≤
      ((runAllow [] calls).2.filter (fun t => s - t < TIME_WINDOW)).length) :
    runAllow [] (calls ++ [s]) =
      ((runAllow [] calls).2.filter (fun t => s - t < TIME_WINDOW),
        (runAllow [] calls).2) := by
  cases calls with
  | nil => simp [runAllow, REQUESTS_PER_SECOND] at hfull
  | cons h0 rest =>
    obtain ⟨hstate, -, hle⟩ :=
      runAllow_from_nil h0 rest (List.pairwise_append.mp hsort).1
    have hlast_le : (h0 :: rest).getLastD 0 ≤ s :=
      (List.pairwise_append.mp hsort).2.2 _ (getLastD_cons_mem h0 rest 0) s (by simp)
    have hPP : ((runAllow [] (h0 :: rest)).1).filter (fun t => s - t < TIME_WINDOW) =
        (runAllow [] (h0 :: rest)).2.filter (fun t => s - t < TIME_WINDOW) := by
      rw [hstate]
      refine filter_filter_imp _ _ _ ?_
      intro a _ hq
      simp only [decide_eq_true_eq] at hq ⊢
      linarith
    have hstep : allow_request (runAllow [] (h0 :: rest)).1 s =
        ((runAllow [] (h0 :: rest)).2.filter (fun t => s - t < TIME_WINDOW), false) := by
      simp only [allow_request]
      rw [hPP, if_neg (by omega)]
    rw [runAllow_append, runAllow_single, hstep]
    simp

/-- A call `s` made once every admitted timestamp has aged out of the
window (at least `TIME_WINDOW` before `s`) is admitted again. -/
lemma runAllow_admit_after_window (calls : List ℚ) (s : ℚ)
    (hsort : List.Pairwise (· ≤ ·) (calls ++ [s]))
    (hold : ∀ a ∈ (runAllow [] calls).2, a ≤ s - TIME_WINDOW) :
    (runAllow [] (calls ++ [s])).2 = (runAllow [] calls).2 ++ [s] := by
  cases calls with
  | nil =>
    have hstep : allow_request [] s = ([s], true) := by
      simp [allow_request, REQUESTS_PER_SECOND]
    have : ([] : List ℚ) ++ [s] = [s] := rfl
    rw [this, runAllow_single, hstep]
    simp [runAllow]
  | cons h0 rest =>
    obtain ⟨hstate, -, -⟩ :=
      runAllow_from_nil h0 rest (List.pairwise_append.mp hsort).1
    have hnil : ((runAllow [] (h0 :: rest)).1).filter (fun t => s - t < TIME_WINDOW) = [] := by
      rw [hstate]
      rw [List.filter_eq_nil_iff]
      intro a ha
      have ha' : a ∈ (runAllow [] (h0 :: rest)).2 := List.mem_of_mem_filter ha
      have := hold a ha'
      simp only [decide_eq_true_eq]
      intro hc
      have hTW : (0 : ℚ) < TIME_WINDOW := by norm_num [TIME_WINDOW]
      linarith
    have hstep : allow_request (runAllow [] (h0 :: rest)).1 s = ([s], true) := by
      simp only [allow_request]
      rw [hnil]
      simp [REQUESTS_PER_SECOND]
    rw [runAllow_append, runAllow_single, hstep]
    simp

/-- C3: under the sliding-window rate limiter with window `TIME_WINDOW` and
cap `REQUESTS_PER_SECOND`, a sorted sequence of calls from one client has at
most `REQUESTS_PER_SECOND` admissions inside any window of length
`TIME_WINDOW`; a further call while `REQUESTS_PER_SECOND` admitted
timestamps are still inside its window is rejected and only the lazy prune
mutates the stored state (no timestamp is appended); a call made once every
admitted timestamp is at least `TIME_WINDOW` old — in particular
`TIME_WINDOW` after a burst of admissions — is admitted again; and a
rate-rejected connection is answered with the fixed 429 response, which
carries `Retry-After: 1`. -/
theorem C3_sliding_window_rate_limit :
    (∀ calls : List ℚ, List.Pairwise (· ≤ ·) calls →
      ∀ x, windowCount x (runAllow [] calls).2 ≤ REQUESTS_PER_SECOND) ∧
    (∀ (calls : List ℚ) (s : ℚ), List.Pairwise (· ≤ ·) (calls ++ [s]) →
      REQUESTS_PER_SECOND ≤
        ((runAllow [] calls).2.filter (fun t => s - t < TIME_WINDOW)).length →
      runAllow [] (calls ++ [s]) =
        ((runAllow [] calls).2.filter (fun t => s - t < TIME_WINDOW),
          (runAllow [] calls).2)) ∧
    (∀ (calls : List ℚ) (s : ℚ), List.Pairwise (· ≤ ·) (calls ++ [s]) →
      (∀ a ∈ (runAllow [] calls).2, a ≤ s - TIME_WINDOW) →
      (runAllow [] (calls ++ [s])).2 = (runAllow [] calls).2 ++ [s]) ∧
    (∀ (fs : FS) (counts : String → Nat) (content_dir : List String) (data : String),
      _serve_connection fs counts content_dir false data = (.resp _respond_429, [])) ∧
    _respond_429.status = "429 Too Many Requests" ∧
    ("Retry-After", "1") ∈ _respond_429.headers := by
  refine ⟨?_, runAllow_reject_when_full, runAllow_admit_after_window,
    serve_rateRejected, rfl, by decide⟩
  intro calls hsort x
  cases calls with
  | nil => simp [runAllow, windowCount]
  | cons h0 rest => exact (runAllow_from_nil h0 rest hsort).2.1 x

/-- Witness for C3: a burst of five calls at time 0 is fully admitted; a
sixth call at time 0 is rejected without touching the state; a call at time
1 (= `TIME_WINDOW` after the burst) is admitted again; and the concrete
rate-rejected connection gets the 429 with `Retry-After: 1`. -/
theorem C3_sliding_window_rate_limit_witness :
    windowCount 0 (runAllow [] [0, 0, 0, 0, 0, 0]).2 ≤ REQUESTS_PER_SECOND ∧
    runAllow [] ([0, 0, 0, 0, 0] ++ [0]) =
      ((runAllow [] [0, 0, 0, 0, 0]).2.filter (fun t => 0 - t < TIME_WINDOW),
        (runAllow [] [0, 0, 0, 0, 0]).2) ∧
    (runAllow [] ([0, 0, 0, 0, 0] ++ [1])).2 = (runAllow [] [0, 0, 0, 0, 0]).2 ++ [1] ∧
    _serve_connection fs0 counts0 ["srv"] false "GET / HTTP/1.1" =
      (.resp _respond_429, []) ∧
    _respond_429.status = "429 Too Many Requests" ∧
    ("Retry-After", "1") ∈ _respond_429.headers :=
  ⟨C3_sliding_window_rate_limit.1 [0, 0, 0, 0, 0, 0] (by decide) 0,
   C3_sliding_window_rate_limit.2.1 [0, 0, 0, 0, 0] 0 (by decide)
     (by simp [runAllow, allow_request, TIME_WINDOW, REQUESTS_PER_SECOND]),
   C3_sliding_window_rate_limit.2.2.1 [0, 0, 0, 0, 0] 1 (by decide)
     (by simp [runAllow, allow_request, TIME_WINDOW, REQUESTS_PER_SECOND]),
   C3_sliding_window_rate_limit.2.2.2.1 fs0 counts0 ["srv"] "GET / HTTP/1.1",
   C3_sliding_window_rate_limit.2.2.2.2.1,
   C3_sliding_window_rate_limit.2.2.2.2.2⟩

end ServerMT
